import Mathlib

/-!
Shallow embedding of the Earnings & Withdrawal Ledger of the Monetize-Motion
server. The data model follows src/shared/schema.ts (tables users, videos,
withdrawals, likes, follows, notifications) and the operations follow the
Express route handlers in src/server/routes.ts. Decimal columns
(precision 18, scale 8) are modelled as rationals; text columns as strings.
Each awaited database statement on a mutation path can fail by raising an
exception that the surrounding try/catch turns into an HTTP 500 response, so
the fallible statements of the withdrawal handler carry explicit success
flags.
-/

/-- One row of the users table (schema.ts lines 7 to 27), restricted to the
columns the ledger claims mention. The decimal columns totalEarnings,
availableBalance and withdrawnAmount default to "0". -/
structure UserRow where
  id : String
  email : String
  username : String
  totalEarnings : ℚ
  availableBalance : ℚ
  withdrawnAmount : ℚ
  followerCount : Int
  followingCount : Int
  deriving Repr, DecidableEq

/-- One row of the withdrawals table (schema.ts lines 83 to 94). The status
column is text with default "pending"; txHash, adminNotes and processedAt are
nullable. -/
structure WithdrawalRow where
  id : String
  userId : String
  amount : ℚ
  walletAddress : String
  network : String
  status : String
  txHash : Option String
  adminNotes : Option String
  processedAt : Option Nat
  deriving Repr, DecidableEq

/-- One row of the videos table (schema.ts lines 30 to 52), restricted to the
counter columns the routes mutate or the earnings statistics read. -/
structure VideoRow where
  id : String
  userId : String
  viewCount : Int
  likeCount : Int
  commentCount : Int
  adImpressions : Int
  deriving Repr, DecidableEq

/-- The persisted database state the routes operate on. Likes and follows are
kept as (userId, videoId) respectively (followerId, followingId) pairs;
notifications and comments are abstracted to row counts since no ledger claim
reads their contents. -/
structure ServerState where
  users : List UserRow
  withdrawals : List WithdrawalRow
  videos : List VideoRow
  likes : List (String × String)
  follows : List (String × String)
  notificationRows : Nat
  commentRows : Nat
  deriving Repr, DecidableEq

/-- db.query.users.findFirst with where eq(users.id, userId). -/
def findUserById (users : List UserRow) (uid : String) : Option UserRow :=
  users.find? (fun u => u.id == uid)

/-- Outcome of the POST /api/withdrawals handler: the HTTP response it sends.
serverError is the catch-all 500 branch reached when an awaited database
statement throws. -/
inductive WithdrawOutcome where
  | userNotFound
  | insufficientBalance
  | belowMinimum
  | serverError
  | created (w : WithdrawalRow)
  deriving Repr, DecidableEq

/-- HTTP status code of each outcome of POST /api/withdrawals
(routes.ts lines 725, 731, 735, 763, 766). -/
def withdrawHttpStatus : WithdrawOutcome → Nat
  | .userNotFound => 404
  | .insufficientBalance => 400
  | .belowMinimum => 400
  | .serverError => 500
  | .created _ => 200

/-- The error message carried by each non-200 outcome of
POST /api/withdrawals, exactly as the route writes it. -/
def withdrawHttpMessage : WithdrawOutcome → Option String
  | .userNotFound => some "User not found"
  | .insufficientBalance => some "Insufficient balance"
  | .belowMinimum => some "Minimum withdrawal is $10"
  | .serverError => none
  | .created _ => none

/-- The POST /api/withdrawals handler (routes.ts lines 715 to 768).
freshId stands for the gen_random_uuid() primary key of the inserted row;
insertOk, updateOk and notifyOk record whether the three awaited statements
(insert into withdrawals, update of users.availableBalance, insert into
notifications) succeed or throw. The handler looks the user up, rejects with
"Insufficient balance" when amount > availableBalance, then with
"Minimum withdrawal is $10" when amount < 10, and otherwise first inserts the
pending withdrawal row and only afterwards decrements availableBalance; there
is no transaction around the two statements and no use of
withdrawalRequestSchema on the body. -/
def postApiWithdrawals (st : ServerState) (userId : String) (amount : ℚ)
    (walletAddress network freshId : String)
    (insertOk updateOk notifyOk : Bool) : WithdrawOutcome × ServerState :=
  match findUserById st.users userId with
  | none => (.userNotFound, st)
  | some user =>
    let availableBalance := user.availableBalance
    if amount > availableBalance then
      (.insufficientBalance, st)
    else if amount < 10 then
      (.belowMinimum, st)
    else if insertOk = false then
      (.serverError, st)
    else
      let w : WithdrawalRow :=
        { id := freshId, userId := userId, amount := amount,
          walletAddress := walletAddress, network := network,
          status := "pending", txHash := none, adminNotes := none,
          processedAt := none }
      let st1 := { st with withdrawals := st.withdrawals ++ [w] }
      if updateOk = false then
        (.serverError, st1)
      else
        let st2 := { st1 with users := st1.users.map (fun u =>
          if u.id == userId then
            { u with availableBalance := u.availableBalance - amount }
          else u) }
        if notifyOk = false then
          (.serverError, st2)
        else
          (.created w, { st2 with notificationRows := st2.notificationRows + 1 })

/-- withdrawalRequestSchema (schema.ts lines 228 to 232): amount positive,
walletAddress at least 10 characters, network in the closed set
BEP20 or ERC20. Declared in the shared schema module but never invoked by the
withdrawal route. -/
def withdrawalRequestSchemaOk (amount : ℚ) (walletAddress network : String) : Bool :=
  amount > 0 && walletAddress.length ≥ 10 &&
    (network == "BEP20" || network == "ERC20")

/-- POST /api/auth/register (routes.ts lines 80 to 135): if a user with the
lowercased email or username exists the request fails with no insert;
otherwise a user row is inserted whose decimal columns take the schema
defaults "0" and whose counters take the default 0. -/
def registerUser (st : ServerState) (email username newId : String) : ServerState :=
  if st.users.any (fun u =>
      u.email == email.toLower || u.username == username.toLower) then st
  else
    { st with users := st.users ++
        [{ id := newId, email := email.toLower, username := username.toLower,
           totalEarnings := 0, availableBalance := 0, withdrawnAmount := 0,
           followerCount := 0, followingCount := 0 }] }

/-- POST /api/videos/upload (routes.ts lines 297 to 325): inserts a video row
whose counter columns take the schema defaults 0. -/
def uploadVideo (st : ServerState) (userId newVideoId : String) : ServerState :=
  { st with videos := st.videos ++
      [{ id := newVideoId, userId := userId, viewCount := 0, likeCount := 0,
         commentCount := 0, adImpressions := 0 }] }

/-- POST /api/videos/:videoId/like (routes.ts lines 327 to 379): toggles a
like row and the likeCount of the video; when liking a video owned by another
user a notification row is inserted. -/
def likeVideo (st : ServerState) (userId videoId : String) : ServerState :=
  if st.likes.any (fun p => p.1 == userId && p.2 == videoId) then
    { st with
      likes := st.likes.filter (fun p => !(p.1 == userId && p.2 == videoId)),
      videos := st.videos.map (fun v =>
        if v.id == videoId then { v with likeCount := v.likeCount - 1 } else v) }
  else
    let st1 := { st with
      likes := st.likes ++ [(userId, videoId)],
      videos := st.videos.map (fun v : VideoRow =>
        if v.id == videoId then { v with likeCount := v.likeCount + 1 } else v) }
    match st1.videos.find? (fun v : VideoRow => v.id == videoId) with
    | some v =>
      if v.userId ≠ userId then
        { st1 with notificationRows := st1.notificationRows + 1 }
      else st1
    | none => st1

/-- POST /api/videos/:videoId/comments (routes.ts lines 412 to 469): rejects
an empty comment with no mutation; otherwise inserts the comment row,
increments the commentCount of the video, and notifies the owner when the
commenter does not own the video. -/
def postComment (st : ServerState) (userId videoId content : String) : ServerState :=
  if content.trim = "" then st
  else
    let st1 := { st with
      commentRows := st.commentRows + 1,
      videos := st.videos.map (fun v : VideoRow =>
        if v.id == videoId then { v with commentCount := v.commentCount + 1 } else v) }
    match st1.videos.find? (fun v : VideoRow => v.id == videoId) with
    | some v =>
      if v.userId ≠ userId then
        { st1 with notificationRows := st1.notificationRows + 1 }
      else st1
    | none => st1

/-- POST /api/users/:userId/follow (routes.ts lines 588 to 639): rejects a
self-follow or an existing follow with no mutation; otherwise inserts the
follow row, increments followerCount of the followed user and followingCount
of the follower, and inserts a notification row. -/
def followUser (st : ServerState) (followerId userId : String) : ServerState :=
  if userId = followerId then st
  else if st.follows.any (fun p => p.1 == followerId && p.2 == userId) then st
  else
    { st with
      follows := st.follows ++ [(followerId, userId)],
      users := st.users.map (fun u =>
        if u.id == userId then { u with followerCount := u.followerCount + 1 }
        else if u.id == followerId then
          { u with followingCount := u.followingCount + 1 }
        else u),
      notificationRows := st.notificationRows + 1 }

/-- DELETE /api/users/:userId/follow (routes.ts lines 641 to 672): rejects a
missing follow with no mutation; otherwise deletes the follow row and
decrements both counters, clamped at 0 by GREATEST(x - 1, 0). -/
def unfollowUser (st : ServerState) (followerId userId : String) : ServerState :=
  if st.follows.any (fun p => p.1 == followerId && p.2 == userId) then
    { st with
      follows := st.follows.filter (fun p => !(p.1 == followerId && p.2 == userId)),
      users := st.users.map (fun u =>
        if u.id == userId then { u with followerCount := max (u.followerCount - 1) 0 }
        else if u.id == followerId then
          { u with followingCount := max (u.followingCount - 1) 0 }
        else u) }
  else st

/-- The database-mutating operations exposed by registerRoutes
(src/server/routes.ts). Authentication endpoints that only touch the session
store, and all GET endpoints, read or write no row of the modelled tables and
are represented by noOp; POST /api/notifications/read-all only flips isRead
flags, which the model does not track. -/
inductive ApiOp where
  | register (email username newId : String)
  | upload (userId newVideoId : String)
  | like (userId videoId : String)
  | comment (userId videoId content : String)
  | follow (followerId userId : String)
  | unfollow (followerId userId : String)
  | withdraw (userId : String) (amount : ℚ)
      (walletAddress network freshId : String)
      (insertOk updateOk notifyOk : Bool)
  | readAllNotifications (userId : String)
  | noOp
  deriving Repr

/-- One step of the server: dispatch of an exposed operation to its handler,
returning the state after the handler ran (the HTTP response of the
withdrawal handler is recovered through postApiWithdrawals itself). -/
def apiStep (st : ServerState) : ApiOp → ServerState
  | .register email username newId => registerUser st email username newId
  | .upload userId newVideoId => uploadVideo st userId newVideoId
  | .like userId videoId => likeVideo st userId videoId
  | .comment userId videoId content => postComment st userId videoId content
  | .follow followerId userId => followUser st followerId userId
  | .unfollow followerId userId => unfollowUser st followerId userId
  | .withdraw userId amount wa nw fid iOk uOk nOk =>
      (postApiWithdrawals st userId amount wa nw fid iOk uOk nOk).2
  | .readAllNotifications _ => st
  | .noOp => st

/-- Response body of GET /api/users/me/earnings-stats
(routes.ts lines 505 to 527). -/
structure EarningsStatsResponse where
  totalViews : Int
  adImpressions : Int
  cpm : ℚ
  revenueToday : ℚ
  revenueThisWeek : ℚ
  revenueThisMonth : ℚ
  deriving Repr, DecidableEq

/-- GET /api/users/me/earnings-stats: sums viewCount and adImpressions over
the videos of the caller and returns the hardcoded cpm 2.50 together with
zero revenue figures. -/
def getEarningsStats (st : ServerState) (userId : String) : EarningsStatsResponse :=
  let vids := st.videos.filter (fun v => v.userId == userId)
  { totalViews := (vids.map (fun v => v.viewCount)).sum,
    adImpressions := (vids.map (fun v => v.adImpressions)).sum,
    cpm := 2.5,
    revenueToday := 0,
    revenueThisWeek := 0,
    revenueThisMonth := 0 }

/-- Outcome of the administrative transition endpoint. -/
inductive TransitionOutcome where
  | notFound
  | invalidTransition
  | transitioned (w : WithdrawalRow)
  deriving Repr, DecidableEq

/-- Modelled from the spec: the administrative transition endpoint of section
4.3 and the settleWithdrawal operation of section 4.1 are absent from
src/server/routes.ts (only the withdrawals table columns status, txHash,
adminNotes and processedAt of schema.ts declare them). Per the spec, the only
legal transitions are pending to completed (withdrawnAmount increases by the
reserved amount, processedAt is set) and pending to rejected (availableBalance
is restored, processedAt is set); any transition attempt on a non-pending
request fails with InvalidTransition and mutates nothing. -/
def adminTransitionWithdrawal (st : ServerState) (wid : String)
    (newStatus : String) (adminNotes txHash : Option String) (now : Nat) :
    TransitionOutcome × ServerState :=
  match st.withdrawals.find? (fun w => w.id == wid) with
  | none => (.notFound, st)
  | some w =>
    if w.status == "pending" && newStatus == "completed" then
      let w2 : WithdrawalRow := { w with
        status := "completed", txHash := txHash,
        adminNotes := adminNotes, processedAt := some now }
      (.transitioned w2,
        { st with
          withdrawals := st.withdrawals.map (fun x =>
            if x.id == wid then w2 else x),
          users := st.users.map (fun u =>
            if u.id == w.userId then
              { u with withdrawnAmount := u.withdrawnAmount + w.amount }
            else u) })
    else if w.status == "pending" && newStatus == "rejected" then
      let w2 : WithdrawalRow := { w with
        status := "rejected",
        adminNotes := adminNotes, processedAt := some now }
      (.transitioned w2,
        { st with
          withdrawals := st.withdrawals.map (fun x =>
            if x.id == wid then w2 else x),
          users := st.users.map (fun u =>
            if u.id == w.userId then
              { u with availableBalance := u.availableBalance + w.amount }
            else u) })
    else (.invalidTransition, st)

/-- The amounts of the pending withdrawal requests of one user, summed. -/
def pendingSum (ws : List WithdrawalRow) (uid : String) : ℚ :=
  ((ws.filter (fun w => w.userId == uid && w.status == "pending")).map
    (fun w => w.amount)).sum

/-- Every stored user has a non-negative availableBalance. -/
def balancesNonneg (st : ServerState) : Prop :=
  ∀ u ∈ st.users, 0 ≤ u.availableBalance

/-- The round-trip ledger equation of the spec for every stored user:
totalEarnings equals availableBalance plus withdrawnAmount plus the pending
withdrawal amounts of that user. -/
def ledgerEquation (st : ServerState) : Prop :=
  ∀ u ∈ st.users,
    u.totalEarnings =
      u.availableBalance + u.withdrawnAmount + pendingSum st.withdrawals u.id

/-- Every stored user has totalEarnings 0 and withdrawnAmount 0, the schema
defaults. -/
def earningsFieldsZero (st : ServerState) : Prop :=
  ∀ u ∈ st.users, u.totalEarnings = 0 ∧ u.withdrawnAmount = 0

/-- The ids of the stored users, in storage order. Primary-key uniqueness of
the users table is the hypothesis Nodup of this list. -/
def userIds (st : ServerState) : List String :=
  st.users.map (fun u => u.id)

/-- Fixture: a creator whose availableBalance is 50.00 and whose ledger
fields satisfy the round-trip equation (50 = 50 + 0 + 0). -/
def aliceUser : UserRow :=
  { id := "u1", email := "alice@example.com", username := "alice",
    totalEarnings := 50, availableBalance := 50, withdrawnAmount := 0,
    followerCount := 0, followingCount := 0 }

/-- Fixture: a store holding only aliceUser and no withdrawal rows. -/
def stBalance50 : ServerState :=
  { users := [aliceUser], withdrawals := [], videos := [], likes := [],
    follows := [], notificationRows := 0, commentRows := 0 }

/-- Fixture: the same store with availableBalance 5.00. -/
def stBalance5 : ServerState :=
  { users := [{ aliceUser with availableBalance := 5 }], withdrawals := [],
    videos := [], likes := [], follows := [], notificationRows := 0,
    commentRows := 0 }

/-- Fixture: the same store with availableBalance 2.00. -/
def stBalance2 : ServerState :=
  { users := [{ aliceUser with availableBalance := 2 }], withdrawals := [],
    videos := [], likes := [], follows := [], notificationRows := 0,
    commentRows := 0 }

/-- Fixture: the withdrawal row POST /api/withdrawals inserts for a 20.00
request by aliceUser. -/
def pendingRow20 : WithdrawalRow :=
  { id := "w1", userId := "u1", amount := 20,
    walletAddress := "0x1234567890", network := "BEP20",
    status := "pending", txHash := none, adminNotes := none,
    processedAt := none }

/-- Fixture: the row POST /api/withdrawals inserts for a 20.00 request by
aliceUser whose wallet address is empty and whose network is outside the
closed set of withdrawalRequestSchema. -/
def invalidRow20 : WithdrawalRow :=
  { id := "w1", userId := "u1", amount := 20, walletAddress := "",
    network := "DOGE", status := "pending", txHash := none,
    adminNotes := none, processedAt := none }

/-- Fixture: a completed withdrawal row. -/
def completedRow : WithdrawalRow :=
  { id := "w9", userId := "u1", amount := 20,
    walletAddress := "0x1234567890", network := "BEP20",
    status := "completed", txHash := some "0xabc", adminNotes := none,
    processedAt := some 1 }

/-- Fixture: a store holding aliceUser and one completed withdrawal row. -/
def stCompleted : ServerState :=
  { users := [aliceUser], withdrawals := [completedRow], videos := [],
    likes := [], follows := [], notificationRows := 0, commentRows := 0 }

/-- Fixture: a user whose ledger columns all hold the schema default 0. -/
def freshUser : UserRow :=
  { id := "u2", email := "bob@example.com", username := "bob",
    totalEarnings := 0, availableBalance := 0, withdrawnAmount := 0,
    followerCount := 0, followingCount := 0 }

/-- Fixture: a store holding only freshUser. -/
def stFresh : ServerState :=
  { users := [freshUser], withdrawals := [], videos := [], likes := [],
    follows := [], notificationRows := 0, commentRows := 0 }

/-! Helper lemmas about the handlers. -/

theorem find?_user_unique {l : List UserRow} {u0 u : UserRow} {uid : String}
    (hnd : (l.map (fun x => x.id)).Nodup)
    (hf : l.find? (fun x => x.id == uid) = some u0)
    (hm : u ∈ l) (hid : u.id = uid) : u = u0 := by
  have h0m : u0 ∈ l := List.mem_of_find?_eq_some hf
  have h0p := List.find?_some hf
  have h0id : u0.id = uid := by simpa using h0p
  exact List.inj_on_of_nodup_map hnd hm h0m (by rw [hid, h0id])

theorem postApiWithdrawals_insufficient (st : ServerState) (uid : String)
    (amount : ℚ) (wa nw fid : String) (iOk uOk nOk : Bool) (u0 : UserRow)
    (hf : findUserById st.users uid = some u0)
    (hgt : amount > u0.availableBalance) :
    postApiWithdrawals st uid amount wa nw fid iOk uOk nOk =
      (.insufficientBalance, st) := by
  simp only [postApiWithdrawals, hf]
  rw [if_pos hgt]

theorem postApiWithdrawals_belowMin (st : ServerState) (uid : String)
    (amount : ℚ) (wa nw fid : String) (iOk uOk nOk : Bool) (u0 : UserRow)
    (hf : findUserById st.users uid = some u0)
    (hle : ¬ amount > u0.availableBalance) (hlt : amount < 10) :
    postApiWithdrawals st uid amount wa nw fid iOk uOk nOk =
      (.belowMinimum, st) := by
  simp only [postApiWithdrawals, hf]
  rw [if_neg hle, if_pos hlt]

theorem postApiWithdrawals_created_spec (st : ServerState) (uid : String)
    (amount : ℚ) (wa nw fid : String) (iOk uOk nOk : Bool) (w : WithdrawalRow)
    (h : (postApiWithdrawals st uid amount wa nw fid iOk uOk nOk).1 =
      .created w) :
    iOk = true ∧ uOk = true ∧ nOk = true ∧
    ∃ u0, findUserById st.users uid = some u0 ∧
      amount ≤ u0.availableBalance ∧ 10 ≤ amount ∧
      w = { id := fid, userId := uid, amount := amount, walletAddress := wa,
            network := nw, status := "pending", txHash := none,
            adminNotes := none, processedAt := none } ∧
      (postApiWithdrawals st uid amount wa nw fid iOk uOk nOk).2 =
        { st with
          withdrawals := st.withdrawals ++ [w],
          users := st.users.map (fun u =>
            if u.id == uid then
              { u with availableBalance := u.availableBalance - amount }
            else u),
          notificationRows := st.notificationRows + 1 } := by
  cases hf : findUserById st.users uid with
  | none => rw [postApiWithdrawals, hf] at h; cases h
  | some u0 =>
    rw [postApiWithdrawals, hf] at h
    simp only at h
    by_cases hgt : amount > u0.availableBalance
    · rw [if_pos hgt] at h; cases h
    · rw [if_neg hgt] at h
      by_cases hlt : amount < 10
      · rw [if_pos hlt] at h; cases h
      · rw [if_neg hlt] at h
        cases iOk with
        | false => simp at h
        | true =>
          simp only [if_neg (by simp : ¬ (true = false))] at h
          cases uOk with
          | false => simp at h
          | true =>
            simp only [if_neg (by simp : ¬ (true = false))] at h
            cases nOk with
            | false => simp at h
            | true =>
              simp only [if_neg (by simp : ¬ (true = false))] at h
              refine ⟨rfl, rfl, rfl, u0, rfl, le_of_not_lt hgt,
                le_of_not_lt hlt, ?_, ?_⟩
              · cases h; rfl
              · cases h
                rw [postApiWithdrawals, hf]
                simp only [if_neg hgt, if_neg hlt,
                  if_neg (by simp : ¬ (true = false))]

theorem postApiWithdrawals_users_cases (st : ServerState) (uid : String)
    (amount : ℚ) (wa nw fid : String) (iOk uOk nOk : Bool) :
    (postApiWithdrawals st uid amount wa nw fid iOk uOk nOk).2.users =
      st.users ∨
    ∃ u0, findUserById st.users uid = some u0 ∧
      amount ≤ u0.availableBalance ∧
      (postApiWithdrawals st uid amount wa nw fid iOk uOk nOk).2.users =
        st.users.map (fun u =>
          if u.id == uid then
            { u with availableBalance := u.availableBalance - amount }
          else u) := by
  cases hf : findUserById st.users uid with
  | none => left; rw [postApiWithdrawals, hf]
  | some u0 =>
    rw [postApiWithdrawals, hf]
    simp only
    by_cases hgt : amount > u0.availableBalance
    · left; rw [if_pos hgt]
    · rw [if_neg hgt]
      by_cases hlt : amount < 10
      · left; rw [if_pos hlt]
      · rw [if_neg hlt]
        cases iOk with
        | false => left; simp
        | true =>
          simp only [if_neg (by simp : ¬ (true = false))]
          cases uOk with
          | false => left; simp
          | true =>
            simp only [if_neg (by simp : ¬ (true = false))]
            cases nOk with
            | false => right; exact ⟨u0, rfl, le_of_not_lt hgt, by simp⟩
            | true => right; exact ⟨u0, rfl, le_of_not_lt hgt, by simp⟩

theorem uploadVideo_users (st : ServerState) (a b : String) :
    (uploadVideo st a b).users = st.users := rfl

theorem likeVideo_users (st : ServerState) (a b : String) :
    (likeVideo st a b).users = st.users := by
  unfold likeVideo
  split
  · rfl
  · simp only
    split <;> (try split) <;> rfl

theorem postComment_users (st : ServerState) (a b c : String) :
    (postComment st a b c).users = st.users := by
  unfold postComment
  split
  · rfl
  · simp only
    split <;> (try split) <;> rfl

theorem followUser_users_pointwise (st : ServerState) (a b : String)
    (u : UserRow) (hu : u ∈ (followUser st a b).users) :
    ∃ y ∈ st.users, u.availableBalance = y.availableBalance ∧
      u.totalEarnings = y.totalEarnings ∧
      u.withdrawnAmount = y.withdrawnAmount := by
  unfold followUser at hu
  split at hu
  · exact ⟨u, hu, rfl, rfl, rfl⟩
  · split at hu
    · exact ⟨u, hu, rfl, rfl, rfl⟩
    · simp only [List.mem_map] at hu
      obtain ⟨y, hy, rfl⟩ := hu
      refine ⟨y, hy, ?_⟩
      split
      · exact ⟨rfl, rfl, rfl⟩
      · split
        · exact ⟨rfl, rfl, rfl⟩
        · exact ⟨rfl, rfl, rfl⟩

theorem unfollowUser_users_pointwise (st : ServerState) (a b : String)
    (u : UserRow) (hu : u ∈ (unfollowUser st a b).users) :
    ∃ y ∈ st.users, u.availableBalance = y.availableBalance ∧
      u.totalEarnings = y.totalEarnings ∧
      u.withdrawnAmount = y.withdrawnAmount := by
  unfold unfollowUser at hu
  split at hu
  · simp only [List.mem_map] at hu
    obtain ⟨y, hy, rfl⟩ := hu
    refine ⟨y, hy, ?_⟩
    split
    · exact ⟨rfl, rfl, rfl⟩
    · split
      · exact ⟨rfl, rfl, rfl⟩
      · exact ⟨rfl, rfl, rfl⟩
  · exact ⟨u, hu, rfl, rfl, rfl⟩

theorem registerUser_users_cases (st : ServerState) (a b c : String) :
    (registerUser st a b c).users = st.users ∨
    (registerUser st a b c).users = st.users ++
      [{ id := c, email := a.toLower, username := b.toLower,
         totalEarnings := 0, availableBalance := 0, withdrawnAmount := 0,
         followerCount := 0, followingCount := 0 }] := by
  unfold registerUser
  split
  · left; rfl
  · right; rfl

theorem pendingSum_append_single (ws : List WithdrawalRow) (w : WithdrawalRow)
    (uid : String) :
    pendingSum (ws ++ [w]) uid =
      pendingSum ws uid +
        (if (w.userId == uid && w.status == "pending") = true then w.amount
         else 0) := by
  unfold pendingSum
  rw [List.filter_append]
  by_cases hw : (w.userId == uid && w.status == "pending") = true
  · rw [if_pos hw]
    simp [List.filter, hw]
  · rw [if_neg hw]
    simp only [List.filter, hw]
    simp [Bool.not_eq_true] at hw
    simp [List.filter_cons, hw]

theorem earnings_zero_step (st : ServerState) (op : ApiOp)
    (h : earningsFieldsZero st) : earningsFieldsZero (apiStep st op) := by
  cases op with
  | register a b c =>
    intro u hu
    rw [apiStep] at hu
    rcases registerUser_users_cases st a b c with hc | hc
    · rw [hc] at hu; exact h u hu
    · rw [hc] at hu
      rcases List.mem_append.1 hu with hu | hu
      · exact h u hu
      · obtain rfl := List.mem_singleton.1 hu
        exact ⟨rfl, rfl⟩
  | upload a b =>
    intro u hu
    rw [apiStep, uploadVideo_users] at hu
    exact h u hu
  | like a b =>
    intro u hu
    rw [apiStep, likeVideo_users] at hu
    exact h u hu
  | comment a b c =>
    intro u hu
    rw [apiStep, postComment_users] at hu
    exact h u hu
  | follow a b =>
    intro u hu
    rw [apiStep] at hu
    obtain ⟨y, hy, _, hte, hwa⟩ := followUser_users_pointwise st a b u hu
    rw [hte, hwa]; exact h y hy
  | unfollow a b =>
    intro u hu
    rw [apiStep] at hu
    obtain ⟨y, hy, _, hte, hwa⟩ := unfollowUser_users_pointwise st a b u hu
    rw [hte, hwa]; exact h y hy
  | withdraw uid amount wa nw fid iOk uOk nOk =>
    intro u hu
    rw [apiStep] at hu
    rcases postApiWithdrawals_users_cases st uid amount wa nw fid iOk uOk nOk
      with hc | ⟨u0, hf, hle, hc⟩
    · rw [hc] at hu; exact h u hu
    · rw [hc] at hu
      simp only [List.mem_map] at hu
      obtain ⟨y, hy, rfl⟩ := hu
      by_cases hid : (y.id == uid) = true
      · rw [if_pos hid]; exact h y hy
      · rw [if_neg hid]; exact h y hy
  | readAllNotifications a => exact h
  | noOp => exact h

theorem registerUser_withdrawals (st : ServerState) (a b c : String) :
    (registerUser st a b c).withdrawals = st.withdrawals := by
  unfold registerUser
  split <;> rfl

theorem uploadVideo_withdrawals (st : ServerState) (a b : String) :
    (uploadVideo st a b).withdrawals = st.withdrawals := rfl

theorem likeVideo_withdrawals (st : ServerState) (a b : String) :
    (likeVideo st a b).withdrawals = st.withdrawals := by
  unfold likeVideo
  split
  · rfl
  · simp only
    split <;> (try split) <;> rfl

theorem postComment_withdrawals (st : ServerState) (a b c : String) :
    (postComment st a b c).withdrawals = st.withdrawals := by
  unfold postComment
  split
  · rfl
  · simp only
    split <;> (try split) <;> rfl

theorem followUser_withdrawals (st : ServerState) (a b : String) :
    (followUser st a b).withdrawals = st.withdrawals := by
  unfold followUser
  split
  · rfl
  · split <;> rfl

theorem unfollowUser_withdrawals (st : ServerState) (a b : String) :
    (unfollowUser st a b).withdrawals = st.withdrawals := by
  unfold unfollowUser
  split <;> rfl

theorem followUser_users_pointwise_full (st : ServerState) (a b : String)
    (u : UserRow) (hu : u ∈ (followUser st a b).users) :
    ∃ y ∈ st.users, u.id = y.id ∧ u.totalEarnings = y.totalEarnings ∧
      u.availableBalance = y.availableBalance ∧
      u.withdrawnAmount = y.withdrawnAmount := by
  unfold followUser at hu
  split at hu
  · exact ⟨u, hu, rfl, rfl, rfl, rfl⟩
  · split at hu
    · exact ⟨u, hu, rfl, rfl, rfl, rfl⟩
    · simp only [List.mem_map] at hu
      obtain ⟨y, hy, rfl⟩ := hu
      refine ⟨y, hy, ?_⟩
      split
      · exact ⟨rfl, rfl, rfl, rfl⟩
      · split
        · exact ⟨rfl, rfl, rfl, rfl⟩
        · exact ⟨rfl, rfl, rfl, rfl⟩

theorem unfollowUser_users_pointwise_full (st : ServerState) (a b : String)
    (u : UserRow) (hu : u ∈ (unfollowUser st a b).users) :
    ∃ y ∈ st.users, u.id = y.id ∧ u.totalEarnings = y.totalEarnings ∧
      u.availableBalance = y.availableBalance ∧
      u.withdrawnAmount = y.withdrawnAmount := by
  unfold unfollowUser at hu
  split at hu
  · simp only [List.mem_map] at hu
    obtain ⟨y, hy, rfl⟩ := hu
    refine ⟨y, hy, ?_⟩
    split
    · exact ⟨rfl, rfl, rfl, rfl⟩
    · split
      · exact ⟨rfl, rfl, rfl, rfl⟩
      · exact ⟨rfl, rfl, rfl, rfl⟩
  · exact ⟨u, hu, rfl, rfl, rfl, rfl⟩

theorem pendingSum_eq_zero_of_not_mem (ws : List WithdrawalRow) (uid : String)
    (h : ∀ w ∈ ws, w.userId ≠ uid) : pendingSum ws uid = 0 := by
  unfold pendingSum
  have hnil : ws.filter (fun w => w.userId == uid && w.status == "pending") = [] := by
    rw [List.filter_eq_nil_iff]
    intro w hw
    simp [h w hw]
  rw [hnil]
  rfl

theorem postApiWithdrawals_state_cases (st : ServerState) (uid : String)
    (amount : ℚ) (wa nw fid : String) (iOk uOk nOk : Bool) :
    (postApiWithdrawals st uid amount wa nw fid iOk uOk nOk).2 = st ∨
    (iOk = true ∧ uOk = false ∧
      (postApiWithdrawals st uid amount wa nw fid iOk uOk nOk).2 =
        { st with withdrawals := st.withdrawals ++
            [{ id := fid, userId := uid, amount := amount,
               walletAddress := wa, network := nw, status := "pending",
               txHash := none, adminNotes := none, processedAt := none }] }) ∨
    (∃ u0, findUserById st.users uid = some u0 ∧
      amount ≤ u0.availableBalance ∧
      (postApiWithdrawals st uid amount wa nw fid iOk uOk nOk).2.withdrawals =
        st.withdrawals ++
          [{ id := fid, userId := uid, amount := amount,
             walletAddress := wa, network := nw, status := "pending",
             txHash := none, adminNotes := none, processedAt := none }] ∧
      (postApiWithdrawals st uid amount wa nw fid iOk uOk nOk).2.users =
        st.users.map (fun u =>
          if u.id == uid then
            { u with availableBalance := u.availableBalance - amount }
          else u)) := by
  cases hf : findUserById st.users uid with
  | none => left; rw [postApiWithdrawals, hf]
  | some u0 =>
    rw [postApiWithdrawals, hf]
    simp only
    by_cases hgt : amount > u0.availableBalance
    · left; rw [if_pos hgt]
    · rw [if_neg hgt]
      by_cases hlt : amount < 10
      · left; rw [if_pos hlt]
      · rw [if_neg hlt]
        cases iOk with
        | false => left; simp
        | true =>
          simp only [if_neg (by simp : ¬ (true = false))]
          cases uOk with
          | false =>
            right; left
            refine ⟨?_, ?_, ?_⟩ <;> simp
          | true =>
            simp only [if_neg (by simp : ¬ (true = false))]
            cases nOk with
            | false =>
              right; right
              exact ⟨u0, rfl, le_of_not_lt hgt, by simp, by simp⟩
            | true =>
              right; right
              exact ⟨u0, rfl, le_of_not_lt hgt, by simp, by simp⟩

theorem ledgerEquation_after_reserve (st st2 : ServerState) (uid : String)
    (amount : ℚ) (wa nw fid : String)
    (hinv : ledgerEquation st)
    (hwd : st2.withdrawals = st.withdrawals ++
      [{ id := fid, userId := uid, amount := amount, walletAddress := wa,
         network := nw, status := "pending", txHash := none,
         adminNotes := none, processedAt := none }])
    (hus : st2.users = st.users.map (fun u =>
      if u.id == uid then
        { u with availableBalance := u.availableBalance - amount }
      else u)) :
    ledgerEquation st2 := by
  intro u hu
  rw [hus] at hu
  rw [hwd]
  simp only [List.mem_map] at hu
  obtain ⟨y, hy, rfl⟩ := hu
  by_cases hid : (y.id == uid) = true
  · have hyid : y.id = uid := by simpa using hid
    rw [if_pos hid]
    simp only
    rw [pendingSum_append_single]
    rw [if_pos (by simp [hyid])]
    have := hinv y hy
    simp only
    linarith [this]
  · rw [if_neg hid]
    rw [pendingSum_append_single]
    rw [if_neg (by
      simp only [Bool.and_eq_true, beq_iff_eq]
      intro hcon
      exact hid (by simp [hcon.1]))]
    rw [add_zero]
    exact hinv y hy


/-! The claims. -/

/-- C1: for every account and every exposed operation (in particular
POST /api/withdrawals), if availableBalance is non-negative for every stored
user before the operation then it is non-negative after it: the handler
deducts amount only after the amount > availableBalance and the amount < 10
checks have both failed, so the post-deduction balance
availableBalance - amount is non-negative. The Nodup hypothesis is
primary-key uniqueness of users.id. -/
theorem exposed_ops_preserve_nonneg_balance (st : ServerState) (op : ApiOp)
    (hids : (userIds st).Nodup) (h : balancesNonneg st) :
    balancesNonneg (apiStep st op) := by
  cases op with
  | register a b c =>
    intro u hu
    rw [apiStep] at hu
    rcases registerUser_users_cases st a b c with hc | hc
    · rw [hc] at hu; exact h u hu
    · rw [hc] at hu
      rcases List.mem_append.1 hu with hu | hu
      · exact h u hu
      · obtain rfl := List.mem_singleton.1 hu
        exact le_rfl
  | upload a b =>
    intro u hu
    rw [apiStep, uploadVideo_users] at hu
    exact h u hu
  | like a b =>
    intro u hu
    rw [apiStep, likeVideo_users] at hu
    exact h u hu
  | comment a b c =>
    intro u hu
    rw [apiStep, postComment_users] at hu
    exact h u hu
  | follow a b =>
    intro u hu
    rw [apiStep] at hu
    obtain ⟨y, hy, hbal, _, _⟩ := followUser_users_pointwise st a b u hu
    rw [hbal]; exact h y hy
  | unfollow a b =>
    intro u hu
    rw [apiStep] at hu
    obtain ⟨y, hy, hbal, _, _⟩ := unfollowUser_users_pointwise st a b u hu
    rw [hbal]; exact h y hy
  | withdraw uid amount wa nw fid iOk uOk nOk =>
    intro u hu
    rw [apiStep] at hu
    rcases postApiWithdrawals_users_cases st uid amount wa nw fid iOk uOk nOk
      with hc | ⟨u0, hf, hle, hc⟩
    · rw [hc] at hu; exact h u hu
    · rw [hc] at hu
      simp only [List.mem_map] at hu
      obtain ⟨y, hy, rfl⟩ := hu
      by_cases hid : (y.id == uid) = true
      · rw [if_pos hid]
        have hy0 : y = u0 :=
          find?_user_unique hids hf hy (by simpa using hid)
        subst hy0
        exact sub_nonneg.mpr hle
      · rw [if_neg hid]
        exact h y hy
  | readAllNotifications a => exact h
  | noOp => exact h

/-- Witness for C1: the store with availableBalance 50 and a successful 20.00
withdrawal. -/
theorem exposed_ops_preserve_nonneg_balance_witness :
    (userIds stBalance50).Nodup ∧ balancesNonneg stBalance50 ∧
    balancesNonneg (apiStep stBalance50
      (ApiOp.withdraw "u1" 20 "0x1234567890" "BEP20" "w1" true true true)) :=
  ⟨by decide,
   by intro u hu; obtain rfl := List.mem_singleton.1 hu; norm_num [aliceUser],
   exposed_ops_preserve_nonneg_balance stBalance50
     (ApiOp.withdraw "u1" 20 "0x1234567890" "BEP20" "w1" true true true)
     (by decide)
     (by intro u hu; obtain rfl := List.mem_singleton.1 hu
         norm_num [aliceUser])⟩

/-- C2 counterexample: the ledger equation is not preserved by every exposed
operation. It holds for the store with totalEarnings 50 = 50 + 0 + 0, yet
after the exposed POST /api/withdrawals of 20.00 in which the pending-row
insert succeeds and the balance update throws (an outcome the route reaches
with HTTP 500), the pending sum is 20 while availableBalance is still 50, so
the equation fails. -/
theorem ledger_equation_claim_counterexample :
    ledgerEquation stBalance50 ∧
    (postApiWithdrawals stBalance50 "u1" 20 "0x1234567890" "BEP20" "w1"
        true false true).1 = .serverError ∧
    ¬ ledgerEquation (apiStep stBalance50
      (ApiOp.withdraw "u1" 20 "0x1234567890" "BEP20" "w1" true false true)) := by
  refine ⟨?_, ?_, ?_⟩
  · intro u hu
    obtain rfl := List.mem_singleton.1 hu
    norm_num [aliceUser, stBalance50, pendingSum]
  · norm_num [postApiWithdrawals, findUserById, stBalance50, aliceUser]
  · intro hcon
    have hmem : aliceUser ∈ (apiStep stBalance50
        (ApiOp.withdraw "u1" 20 "0x1234567890" "BEP20" "w1"
          true false true)).users := by
      norm_num [apiStep, postApiWithdrawals, findUserById, stBalance50,
        aliceUser]
    have heq := hcon aliceUser hmem
    norm_num [apiStep, postApiWithdrawals, findUserById, stBalance50,
      aliceUser, pendingSum] at heq

/-- C2 (amended): the equation totalEarnings = availableBalance +
withdrawnAmount + sum of the pending withdrawal amounts of the user is
preserved by every exposed operation except the partial-failure path of
POST /api/withdrawals in which the pending-row insert succeeds and the
balance update throws: in particular it is preserved by every successful
POST /api/withdrawals of amount a, where availableBalance decreases by a
while the pending sum increases by a and totalEarnings and withdrawnAmount
are untouched. The freshness hypothesis on register is uuid generation plus
the foreign key from withdrawals.userId to users.id. -/
theorem ledger_equation_preserved_without_partial_withdrawal
    (st : ServerState) (op : ApiOp)
    (hfresh : ∀ a b c, op = ApiOp.register a b c →
      ∀ w ∈ st.withdrawals, w.userId ≠ c)
    (hatomic : ∀ uid amount wa nw fid iOk uOk nOk,
      op = ApiOp.withdraw uid amount wa nw fid iOk uOk nOk →
      iOk = true → uOk = true)
    (hinv : ledgerEquation st) :
    ledgerEquation (apiStep st op) := by
  cases op with
  | register a b c =>
    intro u hu
    rw [apiStep] at hu
    rw [apiStep, registerUser_withdrawals]
    rcases registerUser_users_cases st a b c with hc | hc
    · rw [hc] at hu
      exact hinv u hu
    · rw [hc] at hu
      rcases List.mem_append.1 hu with hu | hu
      · exact hinv u hu
      · obtain rfl := List.mem_singleton.1 hu
        show (0:ℚ) = 0 + 0 + pendingSum st.withdrawals c
        rw [pendingSum_eq_zero_of_not_mem st.withdrawals c
          (hfresh a b c rfl)]
        norm_num
  | upload a b =>
    intro u hu
    rw [apiStep, uploadVideo_users] at hu
    rw [apiStep, uploadVideo_withdrawals]
    exact hinv u hu
  | like a b =>
    intro u hu
    rw [apiStep, likeVideo_users] at hu
    rw [apiStep, likeVideo_withdrawals]
    exact hinv u hu
  | comment a b c =>
    intro u hu
    rw [apiStep, postComment_users] at hu
    rw [apiStep, postComment_withdrawals]
    exact hinv u hu
  | follow a b =>
    intro u hu
    rw [apiStep] at hu
    obtain ⟨y, hy, hyid, hte, hab, hwa⟩ :=
      followUser_users_pointwise_full st a b u hu
    rw [apiStep, followUser_withdrawals, hte, hab, hwa, hyid]
    exact hinv y hy
  | unfollow a b =>
    intro u hu
    rw [apiStep] at hu
    obtain ⟨y, hy, hyid, hte, hab, hwa⟩ :=
      unfollowUser_users_pointwise_full st a b u hu
    rw [apiStep, unfollowUser_withdrawals, hte, hab, hwa, hyid]
    exact hinv y hy
  | withdraw uid amount wa nw fid iOk uOk nOk =>
    rcases postApiWithdrawals_state_cases st uid amount wa nw fid iOk uOk nOk
      with hc | ⟨hiOk, huOk, -⟩ | ⟨u0, hf, hle, hwd, hus⟩
    · rw [apiStep, hc]; exact hinv
    · have := hatomic uid amount wa nw fid iOk uOk nOk rfl hiOk
      rw [this] at huOk
      cases huOk
    · rw [apiStep]
      exact ledgerEquation_after_reserve st _ uid amount wa nw fid hinv hwd hus
  | readAllNotifications a => exact hinv
  | noOp => exact hinv

/-- Witness for the amended C2: the store with totalEarnings 50 = 50 + 0 + 0
and a fully successful 20.00 withdrawal. -/
theorem ledger_equation_preserved_without_partial_withdrawal_witness :
    ledgerEquation stBalance50 ∧
    ledgerEquation (apiStep stBalance50
      (ApiOp.withdraw "u1" 20 "0x1234567890" "BEP20" "w1" true true true)) :=
  ⟨by intro u hu; obtain rfl := List.mem_singleton.1 hu
      norm_num [aliceUser, stBalance50, pendingSum],
   ledger_equation_preserved_without_partial_withdrawal stBalance50
     (ApiOp.withdraw "u1" 20 "0x1234567890" "BEP20" "w1" true true true)
     (by intro a b c h; cases h)
     (by intro uid amount wa nw fid iOk uOk nOk h hi; cases h; rfl)
     (by intro u hu; obtain rfl := List.mem_singleton.1 hu
         norm_num [aliceUser, stBalance50, pendingSum])⟩

/-- C3: for every stored user and every requested amount with
amount > availableBalance, POST /api/withdrawals fails with HTTP 400 and
message "Insufficient balance" and leaves the whole state, in particular the
balance fields and the withdrawals table, unchanged. -/
theorem insufficient_balance_always_rejected (st : ServerState) (uid : String)
    (amount : ℚ) (wa nw fid : String) (iOk uOk nOk : Bool) (u0 : UserRow)
    (hf : findUserById st.users uid = some u0)
    (hgt : amount > u0.availableBalance) :
    postApiWithdrawals st uid amount wa nw fid iOk uOk nOk =
      (.insufficientBalance, st) ∧
    withdrawHttpStatus
      (postApiWithdrawals st uid amount wa nw fid iOk uOk nOk).1 = 400 ∧
    withdrawHttpMessage
      (postApiWithdrawals st uid amount wa nw fid iOk uOk nOk).1 =
      some "Insufficient balance" := by
  have heq := postApiWithdrawals_insufficient st uid amount wa nw fid
    iOk uOk nOk u0 hf hgt
  refine ⟨heq, ?_, ?_⟩ <;> rw [heq] <;> rfl

/-- Witness for C3: availableBalance 50 and a 60.00 request. -/
theorem insufficient_balance_always_rejected_witness :
    findUserById stBalance50.users "u1" = some aliceUser ∧
    (60:ℚ) > aliceUser.availableBalance ∧
    (postApiWithdrawals stBalance50 "u1" 60 "0x1234567890" "BEP20" "w1"
        true true true = (.insufficientBalance, stBalance50) ∧
      withdrawHttpStatus (postApiWithdrawals stBalance50 "u1" 60
        "0x1234567890" "BEP20" "w1" true true true).1 = 400 ∧
      withdrawHttpMessage (postApiWithdrawals stBalance50 "u1" 60
        "0x1234567890" "BEP20" "w1" true true true).1 =
        some "Insufficient balance") :=
  ⟨by simp [findUserById, stBalance50, aliceUser],
   by norm_num [aliceUser],
   insufficient_balance_always_rejected stBalance50 "u1" 60 "0x1234567890"
     "BEP20" "w1" true true true aliceUser
     (by simp [findUserById, stBalance50, aliceUser])
     (by norm_num [aliceUser])⟩

/-- C4 counterexample: for the user with availableBalance 2.00 a request of
5.00 has amount < 10, yet the route replies "Insufficient balance", not the
BelowMinimum error with message "Minimum withdrawal is $10" that the claim
promises for every amount below the minimum. -/
theorem below_minimum_claim_counterexample :
    (5:ℚ) < 10 ∧
    (postApiWithdrawals stBalance2 "u1" 5 "0x1234567890" "BEP20" "w1"
        true true true).1 = .insufficientBalance ∧
    (postApiWithdrawals stBalance2 "u1" 5 "0x1234567890" "BEP20" "w1"
        true true true).1 ≠ .belowMinimum ∧
    withdrawHttpMessage (postApiWithdrawals stBalance2 "u1" 5 "0x1234567890"
        "BEP20" "w1" true true true).1 ≠ some "Minimum withdrawal is $10" := by
  refine ⟨by norm_num, ?_, ?_, ?_⟩ <;>
    norm_num [postApiWithdrawals, findUserById, withdrawHttpMessage,
      stBalance2, aliceUser] <;> decide

/-- C4 (amended): when the requested amount does not exceed availableBalance,
an amount below the minimum threshold of 10 units fails with HTTP 400 and
message "Minimum withdrawal is $10" and leaves the state unchanged, and an
amount of exactly 10 passes the minimum check. -/
theorem below_minimum_rejected_when_balance_sufficient (st : ServerState)
    (uid : String) (amount : ℚ) (wa nw fid : String) (iOk uOk nOk : Bool)
    (u0 : UserRow)
    (hf : findUserById st.users uid = some u0)
    (hle : ¬ amount > u0.availableBalance) :
    (amount < 10 →
      postApiWithdrawals st uid amount wa nw fid iOk uOk nOk =
          (.belowMinimum, st) ∧
        withdrawHttpStatus
          (postApiWithdrawals st uid amount wa nw fid iOk uOk nOk).1 = 400 ∧
        withdrawHttpMessage
          (postApiWithdrawals st uid amount wa nw fid iOk uOk nOk).1 =
          some "Minimum withdrawal is $10") ∧
    (amount = 10 →
      (postApiWithdrawals st uid amount wa nw fid iOk uOk nOk).1 ≠
        .belowMinimum) := by
  constructor
  · intro hlt
    have heq := postApiWithdrawals_belowMin st uid amount wa nw fid iOk uOk nOk
      u0 hf hle hlt
    refine ⟨heq, ?_, ?_⟩ <;> rw [heq] <;> rfl
  · intro h10
    subst h10
    rw [postApiWithdrawals, hf]
    simp only
    rw [if_neg hle, if_neg (by norm_num : ¬ (10:ℚ) < 10)]
    cases iOk with
    | false => simp
    | true =>
      simp only [if_neg (by simp : ¬ (true = false))]
      cases uOk with
      | false => simp
      | true =>
        simp only [if_neg (by simp : ¬ (true = false))]
        cases nOk with
        | false => simp
        | true => simp

/-- Witness for the amended C4: availableBalance 50 with a 5.00 request. -/
theorem below_minimum_rejected_when_balance_sufficient_witness :
    findUserById stBalance50.users "u1" = some aliceUser ∧
    ¬ (5:ℚ) > aliceUser.availableBalance ∧
    (((5:ℚ) < 10 →
      postApiWithdrawals stBalance50 "u1" 5 "0x1234567890" "BEP20" "w1"
          true true true = (.belowMinimum, stBalance50) ∧
        withdrawHttpStatus (postApiWithdrawals stBalance50 "u1" 5
          "0x1234567890" "BEP20" "w1" true true true).1 = 400 ∧
        withdrawHttpMessage (postApiWithdrawals stBalance50 "u1" 5
          "0x1234567890" "BEP20" "w1" true true true).1 =
          some "Minimum withdrawal is $10") ∧
    ((5:ℚ) = 10 →
      (postApiWithdrawals stBalance50 "u1" 5 "0x1234567890" "BEP20" "w1"
          true true true).1 ≠ .belowMinimum)) :=
  ⟨by simp [findUserById, stBalance50, aliceUser],
   by norm_num [aliceUser],
   below_minimum_rejected_when_balance_sufficient stBalance50 "u1" 5
     "0x1234567890" "BEP20" "w1" true true true aliceUser
     (by simp [findUserById, stBalance50, aliceUser])
     (by norm_num [aliceUser])⟩

/-- C5: with availableBalance 50.00 and a valid 20.00 request, if the insert
of the withdrawal row succeeds and the subsequent availableBalance update
statement throws, the route answers HTTP 500 while the pending withdrawal row
stays persisted and availableBalance stays 50: the two statements are not an
atomic unit, so the outcome the claim rules out is reachable. -/
theorem withdrawal_row_persists_without_deduction :
    (postApiWithdrawals stBalance50 "u1" 20 "0x1234567890" "BEP20" "w1"
        true false true).1 = .serverError ∧
    withdrawHttpStatus (postApiWithdrawals stBalance50 "u1" 20 "0x1234567890"
        "BEP20" "w1" true false true).1 = 500 ∧
    (postApiWithdrawals stBalance50 "u1" 20 "0x1234567890" "BEP20" "w1"
        true false true).2.withdrawals = [pendingRow20] ∧
    (findUserById (postApiWithdrawals stBalance50 "u1" 20 "0x1234567890"
        "BEP20" "w1" true false true).2.users "u1").map
      (fun u => u.availableBalance) = some 50 := by
  refine ⟨?_, ?_, ?_, ?_⟩ <;>
    norm_num [postApiWithdrawals, findUserById, withdrawHttpStatus,
      stBalance50, aliceUser, pendingRow20]

/-- C6: with availableBalance 50.00, a POST /api/withdrawals request of 20.00
succeeds, the created withdrawal has status "pending" and amount 20.00, and
the availableBalance afterwards is 30.00. -/
theorem scenario_balance50_request20_succeeds :
    (postApiWithdrawals stBalance50 "u1" 20 "0x1234567890" "BEP20" "w1"
        true true true).1 = .created pendingRow20 ∧
    pendingRow20.status = "pending" ∧ pendingRow20.amount = 20 ∧
    (postApiWithdrawals stBalance50 "u1" 20 "0x1234567890" "BEP20" "w1"
        true true true).2.withdrawals = [pendingRow20] ∧
    (findUserById (postApiWithdrawals stBalance50 "u1" 20 "0x1234567890"
        "BEP20" "w1" true true true).2.users "u1").map
      (fun u => u.availableBalance) = some 30 := by
  refine ⟨?_, rfl, rfl, ?_, ?_⟩ <;>
    norm_num [postApiWithdrawals, findUserById, stBalance50, aliceUser,
      pendingRow20]

/-- C7: a request whose walletAddress fails the minimal format check of
withdrawalRequestSchema (empty, below the minimum length) and whose network
lies outside the closed set BEP20/ERC20 is nevertheless accepted by
POST /api/withdrawals: the invalid row is persisted as-is and the balance is
deducted, because the route never applies withdrawalRequestSchema. -/
theorem withdrawal_route_skips_schema_validation :
    withdrawalRequestSchemaOk 20 "" "DOGE" = false ∧
    (postApiWithdrawals stBalance50 "u1" 20 "" "DOGE" "w1"
        true true true).1 = .created invalidRow20 ∧
    (postApiWithdrawals stBalance50 "u1" 20 "" "DOGE" "w1"
        true true true).2.withdrawals = [invalidRow20] ∧
    (findUserById (postApiWithdrawals stBalance50 "u1" 20 "" "DOGE" "w1"
        true true true).2.users "u1").map
      (fun u => u.availableBalance) = some 30 := by
  refine ⟨?_, ?_, ?_, ?_⟩ <;>
    norm_num [postApiWithdrawals, findUserById, withdrawalRequestSchemaOk,
      stBalance50, aliceUser, invalidRow20]

/-- C8 counterexample: with availableBalance 5.00 a request of 10.00 is at
the minimum boundary, yet the route does not reply with the BelowMinimum
error: the balance check runs first, so the reported classification is not
the minimum-threshold one that the claim states. -/
theorem scenario_balance5_request10_not_below_minimum :
    (10:ℚ) ≥ 10 ∧ (10:ℚ) > 5 ∧
    (postApiWithdrawals stBalance5 "u1" 10 "0x1234567890" "BEP20" "w1"
        true true true).1 ≠ .belowMinimum ∧
    withdrawHttpMessage (postApiWithdrawals stBalance5 "u1" 10 "0x1234567890"
        "BEP20" "w1" true true true).1 ≠ some "Minimum withdrawal is $10" := by
  refine ⟨by norm_num, by norm_num, ?_, ?_⟩ <;>
    norm_num [postApiWithdrawals, findUserById, withdrawHttpMessage,
      stBalance5, aliceUser] <;> decide

/-- C8 (amended): with availableBalance 5.00 a request of 10.00 fails with
the InsufficientBalance error (HTTP 400, message "Insufficient balance") and
leaves the state unchanged, because the amount > availableBalance check runs
before the minimum-threshold check. -/
theorem scenario_balance5_request10_insufficient :
    postApiWithdrawals stBalance5 "u1" 10 "0x1234567890" "BEP20" "w1"
        true true true = (.insufficientBalance, stBalance5) ∧
    withdrawHttpStatus (postApiWithdrawals stBalance5 "u1" 10 "0x1234567890"
        "BEP20" "w1" true true true).1 = 400 ∧
    withdrawHttpMessage (postApiWithdrawals stBalance5 "u1" 10 "0x1234567890"
        "BEP20" "w1" true true true).1 = some "Insufficient balance" := by
  refine ⟨?_, ?_, ?_⟩ <;>
    norm_num [postApiWithdrawals, findUserById, withdrawHttpStatus,
      withdrawHttpMessage, stBalance5, aliceUser]

/-- C9: a transition attempt on a withdrawal request whose status is terminal
(completed or rejected) fails with InvalidTransition and leaves the whole
state, in particular the request row and the balance fields, unchanged; and
whenever the transition operation succeeds, the request was pending and the
target status was completed or rejected, so those are the only legal
transitions. -/
theorem terminal_withdrawal_transition_fails (st : ServerState)
    (wid newStatus : String) (an tx : Option String) (now : Nat)
    (w : WithdrawalRow)
    (hf : st.withdrawals.find? (fun x => x.id == wid) = some w) :
    (w.status = "completed" ∨ w.status = "rejected" →
      adminTransitionWithdrawal st wid newStatus an tx now =
        (.invalidTransition, st)) ∧
    (∀ w2, (adminTransitionWithdrawal st wid newStatus an tx now).1 =
        .transitioned w2 →
      w.status = "pending" ∧
        (newStatus = "completed" ∨ newStatus = "rejected")) := by
  constructor
  · intro hterm
    have hnp : ¬ (w.status == "pending") = true := by
      rcases hterm with ht | ht <;> simp [ht]
    rw [adminTransitionWithdrawal, hf]
    simp only [Bool.and_eq_true]
    rw [if_neg (by intro hcon; exact hnp hcon.1),
        if_neg (by intro hcon; exact hnp hcon.1)]
  · intro w2 htr
    rw [adminTransitionWithdrawal, hf] at htr
    simp only at htr
    by_cases h1 : (w.status == "pending" && newStatus == "completed") = true
    · rw [if_pos h1] at htr
      simp only [Bool.and_eq_true, beq_iff_eq] at h1
      exact ⟨h1.1, Or.inl h1.2⟩
    · rw [if_neg h1] at htr
      by_cases h2 : (w.status == "pending" && newStatus == "rejected") = true
      · rw [if_pos h2] at htr
        simp only [Bool.and_eq_true, beq_iff_eq] at h2
        exact ⟨h2.1, Or.inr h2.2⟩
      · rw [if_neg h2] at htr
        cases htr

/-- Witness for C9: a completed withdrawal row that an administrator tries to
transition again. -/
theorem terminal_withdrawal_transition_fails_witness :
    stCompleted.withdrawals.find? (fun x => x.id == "w9") =
      some completedRow ∧
    (completedRow.status = "completed" ∨ completedRow.status = "rejected") ∧
    adminTransitionWithdrawal stCompleted "w9" "completed" none
      (some "0xdef") 7 = (.invalidTransition, stCompleted) :=
  ⟨by simp [stCompleted, completedRow],
   Or.inl rfl,
   (terminal_withdrawal_transition_fails stCompleted "w9" "completed" none
      (some "0xdef") 7 completedRow
      (by simp [stCompleted, completedRow])).1 (Or.inl rfl)⟩

/-- C10: no operation exposed by the server modifies totalEarnings or
withdrawnAmount: POST /api/withdrawals touches only availableBalance among
the balance fields, no route implements accrual or settlement, and
GET /api/users/me/earnings-stats returns the hardcoded cpm 2.50 with zero
revenue figures; hence over every sequence of API calls every user keeps the
schema default 0 in both columns. -/
theorem earnings_fields_never_modified (st : ServerState) (ops : List ApiOp)
    (h : earningsFieldsZero st) :
    earningsFieldsZero (ops.foldl apiStep st) ∧
    ∀ st2 uid, (getEarningsStats st2 uid).cpm = 5 / 2 ∧
      (getEarningsStats st2 uid).revenueToday = 0 ∧
      (getEarningsStats st2 uid).revenueThisWeek = 0 ∧
      (getEarningsStats st2 uid).revenueThisMonth = 0 := by
  constructor
  · induction ops generalizing st with
    | nil => exact h
    | cons op ops ih => exact ih (apiStep st op) (earnings_zero_step st op h)
  · intro st2 uid
    refine ⟨?_, rfl, rfl, rfl⟩
    norm_num [getEarningsStats]

/-- Witness for C10: a fresh user running a register, a withdrawal attempt,
an upload, a like and a follow. -/
theorem earnings_fields_never_modified_witness :
    earningsFieldsZero stFresh ∧
    earningsFieldsZero
      (([ApiOp.register "carol@example.com" "carol" "u7",
         ApiOp.withdraw "u2" 20 "0x1234567890" "BEP20" "w1" true true true,
         ApiOp.upload "u2" "v1",
         ApiOp.like "u2" "v1",
         ApiOp.follow "u2" "u7"]).foldl apiStep stFresh) :=
  ⟨by intro u hu; obtain rfl := List.mem_singleton.1 hu
      exact ⟨rfl, rfl⟩,
   (earnings_fields_never_modified stFresh
      [ApiOp.register "carol@example.com" "carol" "u7",
       ApiOp.withdraw "u2" 20 "0x1234567890" "BEP20" "w1" true true true,
       ApiOp.upload "u2" "v1",
       ApiOp.like "u2" "v1",
       ApiOp.follow "u2" "u7"]
      (by intro u hu; obtain rfl := List.mem_singleton.1 hu
          exact ⟨rfl, rfl⟩)).1⟩
